import Mathlib

/-!
Verification development for the OctoPrint-BambuPrinter virtual serial printer.

The definitions below are a shallow embedding of the plugin's Python sources:
* `octoprint_bambu_printer/printer/bambu_virtual_printer.py`
* `octoprint_bambu_printer/printer/printer_serial_io.py`
* `octoprint_bambu_printer/printer/gcode_executor.py`
* `octoprint_bambu_printer/char_counting_queue.py`
* `octoprint_bambu_printer/printer/file_system/{file_info,cached_file_view,remote_sd_card_file_list}.py`

Bytes are modelled as `Nat`, Python `int` as `Int`, Python byte strings as
`List Nat`, fallible code as `Option`/`Except` (a `none` result marks an
uncaught Python exception on that path).  A few functions of the hosting
application (OctoPrint) that are called but are not part of this repository
are modelled from the specification; each such definition is marked
`Modelled from the spec:` in its doc comment.
-/

/-! ## Decimal digit rendering

Support machinery for rendering a natural number the way Python renders an
`int` (decimal digits) and for parsing decimal ASCII digits the way Python's
`int()` and `re` module group extraction do.  Used by the serial transport
embedding and by the modelled short-name generator. -/

/-- Little-endian decimal digits of a natural number (`0` renders to `[]`). -/
def decDigits : Nat → List Nat
  | 0 => []
  | n + 1 => ((n + 1) % 10) :: decDigits ((n + 1) / 10)
decreasing_by exact Nat.div_lt_self (Nat.succ_pos n) (by decide)

/-- Value of a little-endian decimal digit list. -/
def ofDecDigits : List Nat → Nat
  | [] => 0
  | d :: ds => d + 10 * ofDecDigits ds

/-! ## Byte-string helpers (Python `bytes` semantics) -/

/-- ASCII decimal digit test on a byte (`b"0"` .. `b"9"`). -/
def isDigitByte (b : Nat) : Bool := 48 ≤ b && b ≤ 57

/-- Python `bytes` whitespace test (space, tab, newline, carriage return,
vertical tab, form feed), as used by `int()`, `strip()` and `split(None)`. -/
def isPyWhitespace (b : Nat) : Bool :=
  b = 32 || b = 9 || b = 10 || b = 13 || b = 11 || b = 12

/-- Value of a big-endian ASCII digit byte list (used for regex group and
`int()` results once the surrounding checks have passed). -/
def digitsToNat (bs : List Nat) : Nat :=
  bs.foldl (fun acc b => 10 * acc + (b - 48)) 0

/-- Big-endian ASCII decimal rendering of a natural number, exactly the byte
sequence Python produces for a nonnegative `int`. -/
def natToDigitBytes (n : Nat) : List Nat :=
  if n = 0 then [48] else (decDigits n).reverse.map (fun d => 48 + d)

/-- Python `bytes.strip()`: drop whitespace from both ends. -/
def pyStrip (bs : List Nat) : List Nat :=
  ((bs.dropWhile (fun b => isPyWhitespace b)).reverse.dropWhile
    (fun b => isPyWhitespace b)).reverse

/-- Python `int(bs)` on a byte string: strips whitespace, then requires a
nonempty run of decimal digits (the embedding does not support signs, which
never occur on the modelled inputs); `none` models a raised `ValueError`. -/
def pyParseNat (bs : List Nat) : Option Nat :=
  let core := pyStrip bs
  if core ≠ [] ∧ core.all (fun b => isDigitByte b) then some (digitsToNat core)
  else none

/-- Python `bytes.rfind(b)` restricted to a present byte: index of the last
occurrence of `b`, or `none` when absent. -/
def rfindLast (b : Nat) : List Nat → Option Nat
  | [] => none
  | x :: xs =>
    match rfindLast b xs with
    | some i => some (i + 1)
    | none => if x = b then some 0 else none

/-- Python `bs.split(None, 1)`: strip leading whitespace, cut one token at the
first whitespace run, strip the remainder's leading whitespace. -/
def pySplitNone1 (bs : List Nat) : List (List Nat) :=
  let bs1 := bs.dropWhile (fun b => isPyWhitespace b)
  if bs1 = [] then []
  else
    let tok := bs1.takeWhile (fun b => !isPyWhitespace b)
    let rest := (bs1.dropWhile (fun b => !isPyWhitespace b)).dropWhile
      (fun b => isPyWhitespace b)
    if rest = [] then [tok] else [tok, rest]

/-- Decode a byte string as Python `to_unicode(data, "ascii", errors="replace")`
does: ASCII bytes map to themselves, anything else to U+FFFD. -/
def decodeAsciiReplace (bs : List Nat) : String :=
  String.mk (bs.map (fun b => if b < 128 then Char.ofNat b else Char.ofNat 65533))

/-! ## Print lifecycle states and telemetry pushes

Embedding of `BambuVirtualPrinter._update_printer_info`
(`bambu_virtual_printer.py`, lines 179-217).  The printer object owns three
long-lived state instances (`_state_idle`, `_state_printing`,
`_state_paused`); a telemetry push selects one of them and enqueues it via
`change_state`, or logs an "Unknown print job state" warning and enqueues
nothing. -/

inductive PrinterObjectState where
  | Idle
  | Printing
  | Paused
deriving DecidableEq

/-- State instance that `_update_printer_info` passes to `change_state` for a
given remote `gcode_state` string, following the source's `if`/`elif` chain;
`none` means the chain falls through to the logged warning and no state
change is requested. -/
def update_printer_info_target (print_job_state : String) : Option PrinterObjectState :=
  if print_job_state = "IDLE" ∨ print_job_state = "FINISH" ∨ print_job_state = "FAILED" then
    some .Idle
  else if print_job_state = "RUNNING" ∨ print_job_state = "PREPARE" then
    some .Printing
  else if print_job_state = "PAUSE" then
    some .Paused
  else
    none

/-- Combined effect of one telemetry push on the current state object:
`change_state` enqueues the target and `_trigger_change_state` installs it;
when `_update_printer_info` requests nothing the current state stays. -/
def apply_printer_push (current : PrinterObjectState) (print_job_state : String) :
    PrinterObjectState :=
  match update_printer_info_target print_job_state with
  | some s => s
  | none => current

/-! ## Remote file catalog (`file_system/` revision) -/

/-- Final segment of a posix path, as `pathlib.PurePath.name` computes it
(empty segments from repeated separators are ignored). -/
def pathName (p : String) : String :=
  ((p.splitOn "/").filter (fun s => s ≠ "")).getLastD ""

/-- Embedding of the `FileInfo` dataclass
(`file_system/file_info.py`); `date` holds the POSIX timestamp of the
`datetime` stored by the source. -/
structure FileInfo where
  dosname : String
  path : String
  size : Int
  date : Int
deriving DecidableEq

/-- Derived property `FileInfo.file_name`: the path's final segment. -/
def FileInfo.file_name (f : FileInfo) : String := pathName f.path

/-- Modelled from the spec: `unix_timestamp_to_m20_timestamp` from the hosting
application (`octoprint.util.files`), which is not part of this repository.
The spec constrains only where the `<m20Timestamp>` token appears in the
listing line, so the token is rendered as a plain deterministic function of
the cached modification time. -/
def unix_timestamp_to_m20_timestamp (t : Int) : String := "0x" ++ toString t

/-- Derived property `FileInfo.timestamp_m20`. -/
def FileInfo.timestamp_m20 (f : FileInfo) : String :=
  unix_timestamp_to_m20_timestamp f.date

/-- Embedding of `FileInfo.get_gcode_info`: one `M20` listing line. -/
def FileInfo.get_gcode_info (f : FileInfo) : String :=
  f.dosname ++ " " ++ toString f.size ++ " " ++ f.timestamp_m20 ++ " \"" ++
    f.file_name ++ "\""

/-- Embedding of `BambuVirtualPrinter._list_cached_project_files`
(`bambu_virtual_printer.py`, lines 635-642): the exact sequence of lines the
handler sends for a cached catalog, in order. -/
def list_cached_project_files (files : List FileInfo) : List String :=
  (files.foldl (fun out f => out ++ [f.get_gcode_info]) ["Begin file list"]) ++
    ["End file list", "ok"]

/-! ## Print job and status report -/

/-- Embedding of the `PrintJob` dataclass (`print_job.py`). -/
structure PrintJob where
  file_info : FileInfo
  file_position : Int
deriving DecidableEq

/-- Embedding of `BambuVirtualPrinter.report_print_job_status`
(`bambu_virtual_printer.py`, lines 672-680): the lines sent for one status
report, given the current print job. -/
def report_print_job_status (job : Option PrintJob) : List String :=
  match job with
  | some j =>
    let file_position : Int := if j.file_position = 0 then 1 else j.file_position
    ["SD printing byte " ++ toString file_position ++ "/" ++
      toString j.file_info.size]
  | none => ["Not SD printing"]


/-! ## Short names and the remote file catalog

Embedding of `RemoteSDCardFileList` and `CachedFileView`
(`file_system/remote_sd_card_file_list.py`, `file_system/cached_file_view.py`).
The short-name generator itself lives in the hosting application and is
modelled from the spec. -/

/-- ASCII digit character for a decimal digit value below ten. -/
def decDigitChar : Nat → Char
  | 0 => '0'
  | 1 => '1'
  | 2 => '2'
  | 3 => '3'
  | 4 => '4'
  | 5 => '5'
  | 6 => '6'
  | 7 => '7'
  | 8 => '8'
  | 9 => '9'
  | _ => '?'

/-- Decimal string rendering of a disambiguating counter. -/
def natSuffix (k : Nat) : String :=
  String.mk ((decDigits k).reverse.map decDigitChar)

/-- Candidate short names tried by the modelled short-name generator: the
display name itself, then the display name with `~1`, `~2`, ... appended. -/
def dosCandidate (name : String) : Nat → String
  | 0 => name
  | k + 1 => name ++ "~" ++ natSuffix (k + 1)

/-- Fuel-bounded search for the first candidate index whose name does not
collide with `existing`; fuel `existing.length + 1` always suffices (proved
below by a pigeonhole argument). -/
def pickFreshIdx (name : String) (existing : List String) : Nat → Nat → Nat
  | 0, k => k
  | fuel + 1, k =>
    if dosCandidate name k ∈ existing then pickFreshIdx name existing fuel (k + 1)
    else k

/-- Modelled from the spec: `get_dos_filename` from the hosting application
(`octoprint.util`), which is not part of this repository, composed with the
`.lower()` the caller applies to its result.  Per the spec, short names are
computed deterministically from the display name with collision avoidance
against all names seen so far in the same refresh pass, later duplicates
getting numeric suffixes: the first candidate not in `existing_filenames` is
chosen. -/
def get_dos_filename (name : String) (existing_filenames : List String) : String :=
  dosCandidate name
    (pickFreshIdx name existing_filenames (existing_filenames.length + 1) 0)

/-- Interface of one open FTPS connection as the catalog code uses it:
`size` and `mdtm` per path (`ftp.ftps_session.size` /  the parsed `MDTM`
reply), `listing` for `ftp.list_files(folder, extensions)`. -/
structure FtpConnection where
  size : String → Option Int
  mdtm : String → Int
  listing : String → String → List String

/-- Embedding of `RemoteSDCardFileList._get_ftp_file_info`: builds one catalog
entry; the dosname is derived from the lowercased final path segment against
the collision list. -/
def get_ftp_file_info (ftp : FtpConnection) (file_path : String)
    (existing_files : List String) : FileInfo :=
  { dosname := get_dos_filename (pathName file_path).toLower existing_files
    path := file_path
    size := (ftp.size file_path).getD 0
    date := ftp.mdtm file_path }

/-- Embedding of `RemoteSDCardFileList.get_file_info_for_names`: yields one
entry per listed path, appending each produced entry's `file_name` and
`dosname` to the (mutated) collision list; the final collision list is
returned alongside the entries. -/
def get_file_info_for_names (ftp : FtpConnection) (files : List String)
    (existing_files : List String) : List FileInfo × List String :=
  match files with
  | [] => ([], existing_files)
  | entry :: rest =>
    let file_info := get_ftp_file_info ftp entry existing_files
    let r := get_file_info_for_names ftp rest
      (existing_files ++ [file_info.file_name, file_info.dosname])
    (file_info :: r.1, r.2)

/-- Embedding of `RemoteSDCardFileList.list_files`. -/
def list_files (ftp : FtpConnection) (folder extensions : String)
    (existing_files : List String) : List FileInfo × List String :=
  get_file_info_for_names ftp (ftp.listing folder extensions) existing_files

/-- Embedding of `CachedFileView.list_all_views`: one catalog refresh pass;
a single `existing_files` collision list starts empty and is shared across
all registered folder/extension filters. -/
def list_all_views (ftp : FtpConnection) (folder_view : List (String × String)) :
    List FileInfo :=
  (folder_view.foldl
    (fun acc filt =>
      let r := list_files ftp filt.1 filt.2 acc.2
      (acc.1 ++ r.1, r.2))
    (([] : List FileInfo), ([] : List String))).1

/-! ## G-code command dispatcher

Embedding of `GCodeExecutor` (`gcode_executor.py`).  A Python handler is
modelled by its number of required positional parameters (what
`_get_required_args_count` computes from its signature) together with its
behaviour: called with its argument list minus the printer object, it either
returns a boolean or raises (`Except.error`). -/

structure PyFunc where
  required_count : Nat
  run : List String → Except String Bool

/-- Python dict assignment `m[k] = v` on an insertion-ordered map. -/
def dictSet {α : Type} (m : List (String × α)) (k : String) (v : α) :
    List (String × α) :=
  match m with
  | [] => [(k, v)]
  | (k1, v1) :: rest =>
    if k1 = k then (k, v) :: rest else (k1, v1) :: dictSet rest k v

/-- Python dict lookup `m[k]` / `k in m` on an insertion-ordered map. -/
def dictGet {α : Type} (m : List (String × α)) (k : String) : Option α :=
  match m with
  | [] => none
  | (k1, v1) :: rest => if k1 = k then some v1 else dictGet rest k

structure GCodeExecutor where
  gcode_handlers : List (String × PyFunc)
  gcode_handlers_no_data : List (String × PyFunc)

/-- Embedding of `GCodeExecutor.register` (the decorator body, lines
280-293): one required parameter binds the handler into the no-data map, two
into the with-data map, anything else raises `ValueError` at registration
time (`Except.error`). -/
def GCodeExecutor.register (ex : GCodeExecutor) (gcode : String)
    (func : PyFunc) : Except String GCodeExecutor :=
  if func.required_count = 1 then
    Except.ok { ex with
      gcode_handlers_no_data := dictSet ex.gcode_handlers_no_data gcode func }
  else if func.required_count = 2 then
    Except.ok { ex with
      gcode_handlers := dictSet ex.gcode_handlers gcode func }
  else
    Except.error ("Cannot register function with " ++
      toString func.required_count ++ " required parameters")

/-- Embedding of `GCodeExecutor.execute` (lines 302-317): the with-data map
is consulted first, then the no-data map; a raising handler is caught and
reported as `false`; a token registered in neither map is logged as ignored
and reported as `true`. -/
def GCodeExecutor.execute (ex : GCodeExecutor) (gcode : String) (data : String) :
    Bool :=
  match dictGet ex.gcode_handlers gcode with
  | some h =>
    match h.run [data] with
    | Except.ok b => b
    | Except.error _ => false
  | none =>
    match dictGet ex.gcode_handlers_no_data gcode with
    | some h =>
      match h.run [] with
      | Except.ok b => b
      | Except.error _ => false
    | none => true

/-! ## Project file selection

Embedding of the selection-related members of `BambuVirtualPrinter`
(`bambu_virtual_printer.py`): `remove_project_selection` (lines 330-337),
`select_project_file` (lines 340-358), `_send_file_selected_message` (lines
396-401) and the `M23` handler `_select_sd_file` (lines 366-393).  Only the
fields these methods touch are modelled; emitted serial lines are returned
alongside the new state. -/

structure BambuVirtualPrinterSel where
  selected_project_file : Option FileInfo
  current_print_job : Option PrintJob
deriving DecidableEq

/-- Modelled from the spec: `CachedFileView.get_file_by_name`, which
`select_project_file` calls but which is absent from the sources under
`src/` (only its caller is present).  Per the spec's catalog interface, it
resolves a name against the cached view, first as a canonical path and then
through the short-name alias map, without triggering a refresh. -/
def get_file_by_name (catalog : List FileInfo) (file_path : String) :
    Option FileInfo :=
  catalog.find? (fun f => f.path = file_path || f.dosname = file_path)

/-- Embedding of `BambuVirtualPrinter._send_file_selected_message`: silent
when nothing is selected. -/
def send_file_selected_message (st : BambuVirtualPrinterSel) : List String :=
  match st.selected_project_file with
  | none => []
  | some f =>
    ["File opened: " ++ f.dosname ++ " Size: " ++ toString f.size,
     "File selected"]

/-- Embedding of `BambuVirtualPrinter.remove_project_selection`: clears the
selection, then sends the selected-file message (which is empty after the
clear). -/
def remove_project_selection (st : BambuVirtualPrinterSel) :
    BambuVirtualPrinterSel × List String :=
  let st1 := { st with selected_project_file := none }
  (st1, send_file_selected_message st1)

/-- Embedding of `BambuVirtualPrinter.select_project_file`: resolves the name
in the cached project view; keeps everything unchanged when the same path is
already selected or when the file is unknown (returning `true` resp.
`false`), otherwise installs the new selection and announces it. -/
def select_project_file (st : BambuVirtualPrinterSel) (catalog : List FileInfo)
    (file_path : String) : BambuVirtualPrinterSel × List String × Bool :=
  let file_info := get_file_by_name catalog file_path
  let already :=
    match st.selected_project_file, file_info with
    | some sel, some fi => sel.path == fi.path
    | _, _ => false
  if already then (st, [], true)
  else
    match file_info with
    | none => (st, [], false)
    | some fi =>
      let st1 := { st with selected_project_file := some fi }
      (st1, send_file_selected_message st1, true)

/-- Python `str` whitespace test for the characters the plugin encounters. -/
def isPyWsChar (c : Char) : Bool :=
  c = ' ' || c = '\t' || c = '\n' || c = '\r' ||
    c = Char.ofNat 11 || c = Char.ofNat 12

/-- Python `s.split(maxsplit=1)` on a string (separator `None`). -/
def pyStrSplitNone1 (s : String) : List String :=
  let cs := s.data.dropWhile (fun c => isPyWsChar c)
  if cs = [] then []
  else
    let tok := cs.takeWhile (fun c => !isPyWsChar c)
    let rest := (cs.dropWhile (fun c => !isPyWsChar c)).dropWhile
      (fun c => isPyWsChar c)
    if rest = [] then [String.mk tok] else [String.mk tok, String.mk rest]

/-- Python `s.strip()` on a string. -/
def pyStrStrip (s : String) : String :=
  String.mk (((s.data.dropWhile (fun c => isPyWsChar c)).reverse.dropWhile
    (fun c => isPyWsChar c)).reverse)

/-- Embedding of the `M23` handler `BambuVirtualPrinter._select_sd_file`:
extracts the file name from the command, clears any previous selection
(`remove_project_selection`), sleeps, then attempts the new selection;
`none` models the `IndexError` raised when the command carries no argument.
The emitted lines of both steps are concatenated. -/
def select_sd_file (st : BambuVirtualPrinterSel) (catalog : List FileInfo)
    (data : String) : Option (BambuVirtualPrinterSel × List String × Bool) :=
  match (pyStrSplitNone1 data).get? 1 with
  | none => none
  | some arg =>
    let filename := pyStrStrip arg
    let r1 := remove_project_selection st
    let r2 := select_project_file r1.1 catalog filename
    some (r2.1, r1.2 ++ r2.2.1, r2.2.2)

/-! ## Bounded input queue and serial write

Embedding of `CharCountingQueue.put` (`char_counting_queue.py`, lines 15-46)
and `PrinterSerialIO.write` (`printer_serial_io.py`, lines 95-113).  The
queue is reduced to its character count (`qsize`); the blocking wait is
modelled under the premise of the claim — no consumer frees space while the
writer waits — so an item that does not fit waits out the (positive) timeout
and raises `queue.Full`. -/

/-- Length of the Python slice `item[:n]` of a sequence of length `len`. -/
def pySliceLen (len n : Int) : Int :=
  if 0 ≤ n then min len n else max 0 (len + n)

/-- Embedding of `CharCountingQueue._will_it_fit`. -/
def will_it_fit (maxsize qsize itemLen : Int) : Bool :=
  maxsize - qsize ≥ itemLen

inductive PutOutcome where
  | accepted (written : Int) (newQsize : Int)
  | full
deriving DecidableEq

/-- Embedding of `CharCountingQueue.put` with `block=True` and a positive
timeout: an oversized item is truncated to the free space when `partial` is
requested and any space is free; afterwards, an item that fits is enqueued
and its length returned, and one that does not (with no consumer running)
times out into `queue.Full`. -/
def CharCountingQueue.put (maxsize qsize itemLen : Int) (partialFlag : Bool) :
    PutOutcome :=
  let itemLen1 :=
    if !will_it_fit maxsize qsize itemLen && partialFlag then
      let space_left := maxsize - qsize
      if space_left ≠ 0 then pySliceLen itemLen space_left else itemLen
    else itemLen
  if will_it_fit maxsize qsize itemLen1 then
    PutOutcome.accepted itemLen1 (qsize + itemLen1)
  else
    PutOutcome.full

inductive WriteOutcome where
  | written (count : Int) (newQsize : Int)
  | timeoutError
deriving DecidableEq

/-- Embedding of `PrinterSerialIO.write`: a closed transport accepts nothing
and returns 0; otherwise the payload goes to the 64-byte `CharCountingQueue`
with `partial=True`, and `queue.Full` is re-raised as
`SerialTimeoutException` (`.timeoutError`). -/
def serial_write (running : Bool) (qsize itemLen : Int) : WriteOutcome :=
  if !running then WriteOutcome.written 0 qsize
  else
    match CharCountingQueue.put 64 qsize itemLen true with
    | PutOutcome.accepted w q => WriteOutcome.written w q
    | PutOutcome.full => WriteOutcome.timeoutError

/-! ## Serial line discipline

Embedding of `PrinterSerialIO._process_input_gcode_line` (lines 142-184),
`_triggerResend` (lines 186-210), `_calculate_checksum` (lines 212-216) and
`_format_error` (lines 218-228).  One call processes one newline-terminated
byte line (the reader loop hands lines over including their trailing
newline).  `lastN` and `current_line` are the two protocol counters; a
`none` result marks an uncaught Python exception on that input. -/

structure SerialState where
  lastN : Int
  current_line : Int
deriving DecidableEq

inductive SerialEvent where
  | sent (line : String)
  | dispatched (gcode_letter : String) (gcode : String) (command : String)
deriving DecidableEq

/-- Marks the events that put a line on the outbound queue (`send`). -/
def SerialEvent.isSent : SerialEvent → Bool
  | SerialEvent.sent _ => true
  | SerialEvent.dispatched _ _ _ => false

/-- Python substring containment `needle in hay` on byte strings. -/
def bytesContains (hay needle : List Nat) : Bool :=
  match hay with
  | [] => needle = []
  | _ :: hs => needle.isPrefixOf hay || bytesContains hs needle

/-- Embedding of `PrinterSerialIO._calculate_checksum`: XOR over the bytes. -/
def calculate_checksum (line : List Nat) : Nat :=
  line.foldl (fun acc c => acc ^^^ c) 0

/-- Rendering of `_format_error("lineno_mismatch", expected, actual)`. -/
def format_error_lineno (expected actual : Int) : String :=
  "Error: expected line " ++ toString expected ++ " got " ++ toString actual

/-- Embedding of `PrinterSerialIO._triggerResend`: fixes up `lastN` when an
expected number is supplied, then sends the error line, the
`Resend:<expected>` line and `ok`, in that order.  Both call sites leave the
`checksum` argument at its `None` default, so the error text for a pure
checksum failure is the `checksum_missing` one. -/
def triggerResend (st : SerialState) (expected actual checksum : Option Int) :
    SerialState × List String :=
  let p :=
    match expected with
    | none => (st.lastN + 1, st)
    | some e => (e, { st with lastN := e - 1 })
  let line1 :=
    match actual with
    | none =>
      match checksum with
      | some c => if c ≠ 0 then "Error: Checksum mismatch" else "Error: Missing checksum"
      | none => "Error: Missing checksum"
    | some a => format_error_lineno p.1 a
  (p.2, [line1, "Resend:" ++ toString p.1, "ok"])

/-- First match of the regex `N([0-9]+)` over a byte string: the value of the
digit group, or `none` when the pattern does not occur. -/
def find_n_match : List Nat → Option Nat
  | [] => none
  | b :: rest =>
    if b = 78 then
      let ds := rest.takeWhile (fun x => isDigitByte x)
      if ds = [] then find_n_match rest else some (digitsToNat ds)
    else find_n_match rest

/-- Match of the anchored regex `^([GM])(\d+)` over a byte string: the whole
match (letter and digit run), or `none`. -/
def command_regex_match (bs : List Nat) : Option (List Nat) :=
  match bs with
  | [] => none
  | b :: rest =>
    if b = 71 ∨ b = 77 then
      let ds := rest.takeWhile (fun x => isDigitByte x)
      if ds = [] then none else some (b :: ds)
    else none

/-- Embedding of the tail of `_process_input_gcode_line`: `data += b"\n"`,
decode, strip, and dispatch through `_handle_command_callback` when the
command matches `^([GM])(\d+)`. -/
def dispatch_command (st : SerialState) (data : List Nat) :
    SerialState × List SerialEvent :=
  let stripped := pyStrip (data ++ [10])
  let command := decodeAsciiReplace stripped
  match command_regex_match stripped with
  | some g0 =>
    (st, [SerialEvent.dispatched (decodeAsciiReplace (g0.take 1))
      (decodeAsciiReplace g0) command])
  | none => (st, [])

/-- Embedding of the line-number tracking section of
`_process_input_gcode_line` (the code after the checksum handling): `M110`
lines reset both counters and answer `ok`; other `N`-prefixed lines must
carry `lastN + 1`, are answered with a resend request otherwise, and are
stripped of their number marker before dispatch. -/
def handle_line_number (st : SerialState) (data : List Nat) :
    Option (SerialState × List SerialEvent) :=
  if data.head? = some 78 ∧ bytesContains data [77, 49, 49, 48] then
    match find_n_match data with
    | none => none
    | some n =>
      some ({ lastN := (n : Int), current_line := (n : Int) },
        [SerialEvent.sent "ok"])
  else if data.head? = some 78 then
    match find_n_match data with
    | none => none
    | some n =>
      if (n : Int) ≠ st.lastN + 1 then
        let r := triggerResend st none (some (n : Int)) none
        some (r.1, r.2.map SerialEvent.sent)
      else
        let st1 := { st with lastN := (n : Int) }
        match pySplitNone1 data with
        | _ :: rest :: _ => some (dispatch_command st1 (pyStrip rest))
        | _ => none
  else
    some (dispatch_command st data)

/-- Embedding of `PrinterSerialIO._process_input_gcode_line` for one received
line: verify and strip a trailing `*checksum` (requesting a resend of
`current_line + 1` on mismatch), complain when a required checksum is
missing, then track the line number and dispatch. -/
def process_input_gcode_line (forceChecksum : Bool) (st : SerialState)
    (data0 : List Nat) : Option (SerialState × List SerialEvent) :=
  if 42 ∈ data0 then
    match rfindLast 42 data0 with
    | none => none
    | some r =>
      match pyParseNat (data0.drop (r + 1)) with
      | none => none
      | some checksum =>
        let data := data0.take r
        if checksum ≠ calculate_checksum data then
          let t := triggerResend st (some (st.current_line + 1)) none none
          some (t.1, t.2.map SerialEvent.sent)
        else
          handle_line_number { st with current_line := st.current_line + 1 } data
  else if forceChecksum then
    some (st, [SerialEvent.sent "Error: Missing checksum"])
  else
    handle_line_number st data0


/-! ## Sample data for concrete evaluations -/

/-- Sample catalog entry mirroring the spec's `print.3mf` example. -/
def filePrint : FileInfo :=
  { dosname := "print.3mf", path := "print.3mf", size := 1000, date := 1714953600 }

/-- Sample catalog entry mirroring the spec's `print2.3mf` example. -/
def filePrint2 : FileInfo :=
  { dosname := "print2.3mf", path := "print2.3mf", size := 1200, date := 1715040000 }

/-- Sample two-parameter handler that returns `True`. -/
def handlerOk2 : PyFunc := { required_count := 2, run := fun _ => Except.ok true }

/-- Sample zero-parameter handler (an invalid registration shape). -/
def handlerOk0 : PyFunc := { required_count := 0, run := fun _ => Except.ok true }

/-- Sample two-parameter handler that raises. -/
def handlerRaise2 : PyFunc :=
  { required_count := 2, run := fun _ => Except.error "boom" }

/-! ## Theorems -/

/-! ### Digit-rendering lemmas -/

theorem ofDecDigits_decDigits (n : Nat) : ofDecDigits (decDigits n) = n := by
  induction n using Nat.strong_induction_on with
  | _ n ih =>
    match n with
    | 0 => rw [decDigits]; rfl
    | Nat.succ m =>
      rw [decDigits]
      rw [ofDecDigits]
      rw [ih ((m + 1) / 10) (Nat.div_lt_self (Nat.succ_pos m) (by decide))]
      omega

theorem decDigits_injective : Function.Injective decDigits := by
  intro a b h
  have := congrArg ofDecDigits h
  rwa [ofDecDigits_decDigits, ofDecDigits_decDigits] at this

theorem decDigits_lt_ten (n : Nat) : ∀ d ∈ decDigits n, d < 10 := by
  induction n using Nat.strong_induction_on with
  | _ n ih =>
    match n with
    | 0 => intro d hd; simp [decDigits] at hd
    | Nat.succ m =>
      intro d hd
      rw [decDigits] at hd
      rcases List.mem_cons.mp hd with h | h
      · subst h; exact Nat.mod_lt _ (by decide)
      · exact ih ((m + 1) / 10) (Nat.div_lt_self (Nat.succ_pos m) (by decide)) d h

theorem decDigits_ne_nil {n : Nat} (h : n ≠ 0) : decDigits n ≠ [] := by
  match n with
  | 0 => exact absurd rfl h
  | Nat.succ m => rw [decDigits]; simp

theorem digitsToNat_append (xs ys : List Nat) :
    digitsToNat (xs ++ ys) =
      ys.foldl (fun acc b => 10 * acc + (b - 48)) (digitsToNat xs) := by
  simp [digitsToNat, List.foldl_append]

theorem digitsToNat_of_decDigits (ds : List Nat) (h : ∀ d ∈ ds, d < 10) :
    digitsToNat (ds.reverse.map (fun d => 48 + d)) = ofDecDigits ds := by
  induction ds with
  | nil => rfl
  | cons d ds ih =>
    have hd : d < 10 := h d (List.mem_cons_self _ _)
    have hds : ∀ x ∈ ds, x < 10 := fun x hx => h x (List.mem_cons_of_mem _ hx)
    simp only [List.reverse_cons, List.map_append, List.map_cons, List.map_nil]
    rw [digitsToNat_append, ih hds]
    simp [ofDecDigits, digitsToNat]
    omega

theorem digitsToNat_natToDigitBytes (n : Nat) :
    digitsToNat (natToDigitBytes n) = n := by
  by_cases h : n = 0
  · subst h; rfl
  · unfold natToDigitBytes
    rw [if_neg h, digitsToNat_of_decDigits _ (decDigits_lt_ten n),
      ofDecDigits_decDigits]

theorem natToDigitBytes_ne_nil (n : Nat) : natToDigitBytes n ≠ [] := by
  unfold natToDigitBytes
  by_cases h : n = 0
  · simp [h]
  · rw [if_neg h]
    intro hcon
    exact decDigits_ne_nil h (by
      have := congrArg List.length hcon
      simp at this
      exact this)

theorem natToDigitBytes_all_digits (n : Nat) :
    ∀ b ∈ natToDigitBytes n, isDigitByte b = true := by
  intro b hb
  unfold natToDigitBytes at hb
  by_cases h : n = 0
  · rw [if_pos h] at hb
    simp at hb
    subst hb; rfl
  · rw [if_neg h] at hb
    rcases List.mem_map.mp hb with ⟨d, hd, rfl⟩
    have : d < 10 := decDigits_lt_ten n d (List.mem_reverse.mp hd)
    simp [isDigitByte]
    omega

/-! ### C1: telemetry job-state mapping -/

/-- C1: a telemetry push carrying remote job state RUNNING or PREPARE requests
a transition to the Printing state instance, PAUSE to Paused, and IDLE,
FINISH or FAILED to Idle; any other job-state string requests no transition
(the push is a logged no-op) and leaves the current state unchanged. -/
theorem telemetry_state_mapping :
    update_printer_info_target "RUNNING" = some PrinterObjectState.Printing ∧
    update_printer_info_target "PREPARE" = some PrinterObjectState.Printing ∧
    update_printer_info_target "PAUSE" = some PrinterObjectState.Paused ∧
    update_printer_info_target "IDLE" = some PrinterObjectState.Idle ∧
    update_printer_info_target "FINISH" = some PrinterObjectState.Idle ∧
    update_printer_info_target "FAILED" = some PrinterObjectState.Idle ∧
    ∀ s : String,
      s ∉ ["RUNNING", "PREPARE", "PAUSE", "IDLE", "FINISH", "FAILED"] →
      update_printer_info_target s = none ∧
      ∀ c : PrinterObjectState, apply_printer_push c s = c := by
  refine ⟨by decide, by decide, by decide, by decide, by decide, by decide, ?_⟩
  intro s hs
  simp only [List.mem_cons, List.not_mem_nil, or_false, not_or] at hs
  obtain ⟨h1, h2, h3, h4, h5, h6⟩ := hs
  constructor
  · simp [update_printer_info_target, h1, h2, h3, h4, h5, h6]
  · intro c
    simp [apply_printer_push, update_printer_info_target, h1, h2, h3, h4, h5, h6]

/-- Witness for the C1 theorem's unknown-state clause at the concrete string
"SLICING". -/
theorem telemetry_state_mapping_witness :
    update_printer_info_target "SLICING" = none ∧
    apply_printer_push PrinterObjectState.Printing "SLICING" =
      PrinterObjectState.Printing := by
  have h := telemetry_state_mapping.2.2.2.2.2.2 "SLICING" (by decide)
  exact ⟨h.1, h.2 PrinterObjectState.Printing⟩

/-! ### C7: M20 listing format -/

theorem foldl_snoc_eq_append_map (files : List FileInfo) (acc : List String) :
    files.foldl (fun out f => out ++ [f.get_gcode_info]) acc =
      acc ++ files.map FileInfo.get_gcode_info := by
  induction files generalizing acc with
  | nil => simp
  | cons f fs ih => simp [ih]

/-- C7: for every cached catalog, M20 emits exactly `Begin file list`, then
one line per entry of the form `<dosname> <size> <m20Timestamp>
"<displayName>"` (ending with the quoted display name), then
`End file list`, then `ok`, with nothing else. -/
theorem m20_listing_exact (files : List FileInfo) :
    list_cached_project_files files =
      ["Begin file list"] ++
        files.map (fun f =>
          f.dosname ++ " " ++ toString f.size ++ " " ++
            unix_timestamp_to_m20_timestamp f.date ++ " \"" ++
            pathName f.path ++ "\"") ++
        ["End file list", "ok"] := by
  unfold list_cached_project_files
  rw [foldl_snoc_eq_append_map]
  rfl

/-! ### C10: SD print status report -/

/-- C10: while a job is active the status report is the single line
`SD printing byte <p>/<size>` where `p` is the job's file position except
that position 0 is reported as 1 (so the reported position is never 0);
without a job the report is the single line `Not SD printing`. -/
theorem print_status_report (job : Option PrintJob) :
    (∀ j : PrintJob, job = some j →
      ∃ p : Int,
        report_print_job_status job =
          ["SD printing byte " ++ toString p ++ "/" ++
            toString j.file_info.size] ∧
        (j.file_position ≠ 0 → p = j.file_position) ∧
        (j.file_position = 0 → p = 1) ∧
        p ≠ 0) ∧
    (job = none → report_print_job_status job = ["Not SD printing"]) := by
  constructor
  · rintro j rfl
    refine ⟨if j.file_position = 0 then 1 else j.file_position, rfl, ?_, ?_, ?_⟩
    · intro h; simp [h]
    · intro h; simp [h]
    · by_cases h : j.file_position = 0 <;> simp [h]
  · rintro rfl; rfl

/-- Witness for the C10 theorem at a concrete zero-position job and at the
no-job case. -/
theorem print_status_report_witness :
    (∃ p : Int,
      report_print_job_status (some { file_info := filePrint, file_position := 0 }) =
        ["SD printing byte " ++ toString p ++ "/" ++
          toString (filePrint : FileInfo).size] ∧
      ((0 : Int) ≠ 0 → p = 0) ∧
      ((0 : Int) = 0 → p = 1) ∧
      p ≠ 0) ∧
    report_print_job_status none = ["Not SD printing"] :=
  ⟨(print_status_report (some { file_info := filePrint, file_position := 0 })).1
      { file_info := filePrint, file_position := 0 } rfl,
   (print_status_report none).2 rfl⟩

/-! ### C9: handler registration arity validation -/

/-- C9: registering a command handler succeeds exactly when its required
positional parameter count is 1 (bound into the no-data map) or 2 (bound
into the with-data map); any other count raises `ValueError` at registration
time. -/
theorem register_arity_validation (ex : GCodeExecutor) (gcode : String)
    (f : PyFunc) :
    ((∃ ex2, ex.register gcode f = Except.ok ex2) ↔
      f.required_count = 1 ∨ f.required_count = 2) ∧
    (f.required_count = 1 →
      ex.register gcode f = Except.ok { ex with
        gcode_handlers_no_data := dictSet ex.gcode_handlers_no_data gcode f }) ∧
    (f.required_count = 2 →
      ex.register gcode f = Except.ok { ex with
        gcode_handlers := dictSet ex.gcode_handlers gcode f }) ∧
    (f.required_count ≠ 1 → f.required_count ≠ 2 →
      ex.register gcode f = Except.error ("Cannot register function with " ++
        toString f.required_count ++ " required parameters")) := by
  unfold GCodeExecutor.register
  by_cases h1 : f.required_count = 1
  · simp [h1]
  · by_cases h2 : f.required_count = 2
    · simp [h1, h2]
    · simp [h1, h2]

/-- Witness for the C9 theorem: a two-parameter handler registers into the
with-data map, a zero-parameter handler is rejected. -/
theorem register_arity_validation_witness :
    GCodeExecutor.register { gcode_handlers := [], gcode_handlers_no_data := [] }
        "M23" handlerOk2 =
      Except.ok (⟨[("M23", handlerOk2)], []⟩ : GCodeExecutor) ∧
    GCodeExecutor.register { gcode_handlers := [], gcode_handlers_no_data := [] }
        "M23" handlerOk0 =
      Except.error "Cannot register function with 0 required parameters" := by
  constructor
  · have h := (register_arity_validation
      { gcode_handlers := [], gcode_handlers_no_data := [] } "M23"
      handlerOk2).2.2.1 rfl
    simpa [dictSet] using h
  · have h := (register_arity_validation
      { gcode_handlers := [], gcode_handlers_no_data := [] } "M23"
      handlerOk0).2.2.2 (by simp [handlerOk0]) (by simp [handlerOk0])
    simpa [handlerOk0] using h

/-! ### C5: dispatch of unregistered tokens (code bug evidence) -/

/-- C5 (code-bug evidence): evaluating `GCodeExecutor.execute` at a token
registered in neither handler map (the failing input `G28` of
`test_regular_move`) yields `true`, while the claim, the spec and the
repository's own test require `false` so that the caller falls through to
forwarding the command to the remote controller.  A raising handler, by
contrast, is indeed caught and reported as `false` (second conjunct). -/
theorem execute_unregistered_returns_true :
    GCodeExecutor.execute { gcode_handlers := [], gcode_handlers_no_data := [] }
        "G28" "G28" = true ∧
    GCodeExecutor.execute
        { gcode_handlers := [("M23", handlerRaise2)], gcode_handlers_no_data := [] }
        "M23" "M23 print.3mf" = false := by
  exact ⟨rfl, rfl⟩

/-! ### C4: partial write acceptance and write timeout -/

/-- C4: a `write` whose payload does not fully fit the 64-byte input buffer
of an open transport accepts exactly the prefix that fits and returns its
length when at least one byte is free (the buffer ends up full), and fails
with `SerialTimeoutException` when the buffer is completely full and no
space frees before the write timeout (no consumer runs in this model). -/
theorem write_partial_or_timeout (qsize itemLen : Int)
    (h0 : 0 ≤ qsize) (hc : qsize ≤ 64) (hover : 64 - qsize < itemLen) :
    (qsize < 64 →
      serial_write true qsize itemLen = WriteOutcome.written (64 - qsize) 64) ∧
    (qsize = 64 →
      serial_write true qsize itemLen = WriteOutcome.timeoutError) := by
  constructor
  · intro hlt
    have hfit0 : will_it_fit 64 qsize itemLen = false := by
      simp [will_it_fit]; omega
    have hspace : (64 : Int) - qsize ≠ 0 := by omega
    have hslice : pySliceLen itemLen (64 - qsize) = 64 - qsize := by
      simp [pySliceLen]; omega
    have hfit1 : will_it_fit 64 qsize (64 - qsize) = true := by
      simp [will_it_fit]
    simp only [serial_write, CharCountingQueue.put, hfit0, Bool.not_false,
      Bool.true_and, if_pos hspace, hslice, hfit1, if_true, Bool.not_true]
    simp
  · intro heq
    subst heq
    have hfit0 : will_it_fit 64 64 itemLen = false := by
      simp [will_it_fit]; omega
    simp only [serial_write, CharCountingQueue.put, hfit0]
    simp [hfit0]

/-- Witness for the C4 theorem: 10 bytes offered to a buffer holding 60 of 64
accept the 4-byte prefix; one byte offered to a full buffer times out. -/
theorem write_partial_or_timeout_witness :
    serial_write true 60 10 = WriteOutcome.written 4 64 ∧
    serial_write true 64 1 = WriteOutcome.timeoutError := by
  constructor
  · have h := (write_partial_or_timeout 60 10 (by norm_num) (by norm_num)
      (by norm_num)).1 (by norm_num)
    norm_num at h
    exact h
  · exact (write_partial_or_timeout 64 1 (by norm_num) (by norm_num)
      (by norm_num)).2 rfl

/-! ### C8: selection independence from the active job -/

/-- C8: on an endpoint with an active print job, successfully selecting a
file with a different path changes only the selected-file field — the
current print job, and in particular its file reference, are untouched —
while the selection afterwards refers to the newly selected file and the
select reports success. -/
theorem select_different_file_preserves_job
    (st : BambuVirtualPrinterSel) (catalog : List FileInfo) (path : String)
    (job : PrintJob) (fi : FileInfo)
    (hjob : st.current_print_job = some job)
    (hfound : get_file_by_name catalog path = some fi)
    (hdiff : ∀ sel, st.selected_project_file = some sel → sel.path ≠ fi.path) :
    select_project_file st catalog path =
      ({ st with selected_project_file := some fi },
        ["File opened: " ++ fi.dosname ++ " Size: " ++ toString fi.size,
          "File selected"], true) ∧
    (select_project_file st catalog path).1.current_print_job = some job ∧
    ((select_project_file st catalog path).1.current_print_job).map
        PrintJob.file_info = some job.file_info ∧
    (select_project_file st catalog path).1.selected_project_file = some fi := by
  have hmain : select_project_file st catalog path =
      ({ st with selected_project_file := some fi },
        ["File opened: " ++ fi.dosname ++ " Size: " ++ toString fi.size,
          "File selected"], true) := by
    unfold select_project_file send_file_selected_message
    rw [hfound]
    cases hsel : st.selected_project_file with
    | none => simp
    | some sel => simp [hdiff sel hsel]
  refine ⟨hmain, ?_, ?_, ?_⟩ <;> rw [hmain] <;> simp [hjob]

/-- Witness for the C8 theorem: with `print.3mf` printing and selected,
selecting `print2.3mf` succeeds, leaves the job on `print.3mf` and moves the
selection to `print2.3mf`. -/
theorem select_different_file_preserves_job_witness :
    select_project_file
        { selected_project_file := some filePrint,
          current_print_job := some { file_info := filePrint, file_position := 0 } }
        [filePrint2] "print2.3mf" =
      ({ selected_project_file := some filePrint2,
          current_print_job := some { file_info := filePrint, file_position := 0 } },
        ["File opened: " ++ (filePrint2 : FileInfo).dosname ++ " Size: " ++
          toString (filePrint2 : FileInfo).size, "File selected"], true) := by
  have h := (select_different_file_preserves_job
    { selected_project_file := some filePrint,
      current_print_job := some { file_info := filePrint, file_position := 0 } }
    [filePrint2] "print2.3mf" { file_info := filePrint, file_position := 0 }
    filePrint2 rfl (by decide)
    (by intro sel hsel; injection hsel with h2; subst h2; decide)).1
  exact h

/-! ### C6: M23 with an unknown file -/

/-- C6 counterexample: with `print.3mf` selected and a catalog that does not
contain `ghost.3mf`, the `M23 ghost.3mf` handler leaves NO file selected —
the selection is cleared by the deselection step that runs before the failed
lookup — so the previously selected file is not preserved as the claim
states (and nothing is emitted to the host). -/
theorem select_missing_file_cex :
    select_sd_file
        { selected_project_file := some filePrint, current_print_job := none }
        [filePrint] "M23 ghost.3mf" =
      some ({ selected_project_file := none, current_print_job := none },
        [], false) ∧
    ({ selected_project_file := none,
        current_print_job := none } : BambuVirtualPrinterSel).selected_project_file
      ≠ some filePrint := by
  constructor
  · rfl
  · simp

/-- C6 (amended): for every `M23` command naming a file that is not found in
the catalog, the handler clears any previous selection — afterwards no file
is selected — reports failure, and emits nothing to the host (the error is
only logged); the current print job is untouched. -/
theorem select_missing_file_clears_selection
    (st : BambuVirtualPrinterSel) (catalog : List FileInfo) (data arg : String)
    (harg : (pyStrSplitNone1 data).get? 1 = some arg)
    (hmiss : get_file_by_name catalog (pyStrStrip arg) = none) :
    select_sd_file st catalog data =
      some ((⟨none, st.current_print_job⟩ : BambuVirtualPrinterSel), [], false) := by
  unfold select_sd_file
  rw [harg]
  unfold remove_project_selection select_project_file send_file_selected_message
  simp [hmiss]

/-- Witness for the amended C6 theorem at the counterexample input. -/
theorem select_missing_file_clears_selection_witness :
    select_sd_file
        { selected_project_file := some filePrint, current_print_job := none }
        [filePrint] "M23 ghost.3mf" =
      some ({ selected_project_file := none, current_print_job := none },
        [], false) :=
  select_missing_file_clears_selection
    { selected_project_file := some filePrint, current_print_job := none }
    [filePrint] "M23 ghost.3mf" "ghost.3mf" (by decide) (by decide)

/-! ### C3: short-name uniqueness in one catalog refresh -/

theorem append_take_length {α : Type} (xs ys : List α) :
    (xs ++ ys).take xs.length = xs := by
  induction xs with
  | nil => rfl
  | cons x xs ih => simp [ih]

theorem append_drop_length {α : Type} (xs ys : List α) :
    (xs ++ ys).drop xs.length = ys := by
  induction xs with
  | nil => rfl
  | cons x xs ih => simp [ih]

theorem decDigitChar_inj {d e : Nat} (hd : d < 10) (he : e < 10)
    (h : decDigitChar d = decDigitChar e) : d = e := by
  interval_cases d <;> interval_cases e <;>
    first
      | rfl
      | exact absurd h (by decide)

theorem map_decDigitChar_inj :
    ∀ {as bs : List Nat}, (∀ a ∈ as, a < 10) → (∀ b ∈ bs, b < 10) →
      as.map decDigitChar = bs.map decDigitChar → as = bs := by
  intro as
  induction as with
  | nil =>
    intro bs _ _ h
    cases bs with
    | nil => rfl
    | cons b bs => simp at h
  | cons a as ih =>
    intro bs ha hb h
    cases bs with
    | nil => simp at h
    | cons b bs =>
      simp only [List.map_cons, List.cons.injEq] at h
      have h1 : a = b :=
        decDigitChar_inj (ha a (List.mem_cons_self _ _))
          (hb b (List.mem_cons_self _ _)) h.1
      have h2 : as = bs :=
        ih (fun x hx => ha x (List.mem_cons_of_mem _ hx))
          (fun x hx => hb x (List.mem_cons_of_mem _ hx)) h.2
      rw [h1, h2]

theorem list_append_cancel_left {α : Type} :
    ∀ (xs ys zs : List α), xs ++ ys = xs ++ zs → ys = zs := by
  intro xs
  induction xs with
  | nil => intro ys zs h; exact h
  | cons x xs ih =>
    intro ys zs h
    simp only [List.cons_append, List.cons.injEq, true_and] at h
    exact ih ys zs h

theorem natSuffix_data_inj {j k : Nat}
    (h : (natSuffix j).data = (natSuffix k).data) : j = k := by
  have hrev : (decDigits j).reverse = (decDigits k).reverse :=
    map_decDigitChar_inj
      (fun a ha => decDigits_lt_ten j a (List.mem_reverse.mp ha))
      (fun b hb => decDigits_lt_ten k b (List.mem_reverse.mp hb)) h
  exact decDigits_injective (List.reverse_injective hrev)

theorem dosCandidate_injective (name : String) :
    Function.Injective (dosCandidate name) := by
  intro j k h
  match j, k with
  | 0, 0 => rfl
  | 0, k + 1 =>
    exfalso
    have hlen := congrArg String.length h
    simp only [dosCandidate, String.length_append] at hlen
    rw [show ("~" : String).length = 1 from rfl] at hlen
    omega
  | j + 1, 0 =>
    exfalso
    have hlen := congrArg String.length h
    simp only [dosCandidate, String.length_append] at hlen
    rw [show ("~" : String).length = 1 from rfl] at hlen
    omega
  | j + 1, k + 1 =>
    have hdata := congrArg String.data h
    simp only [dosCandidate, String.data_append, List.append_assoc] at hdata
    have h2 := list_append_cancel_left _ _ _ hdata
    have h3 := list_append_cancel_left (String.data "~") _ _ h2
    rw [natSuffix_data_inj h3]

theorem pickFreshIdx_fresh (name : String) (existing : List String) :
    ∀ fuel k, (∃ j, j < fuel ∧ dosCandidate name (k + j) ∉ existing) →
      dosCandidate name (pickFreshIdx name existing fuel k) ∉ existing := by
  intro fuel
  induction fuel with
  | zero =>
    intro k h
    obtain ⟨j, hj, _⟩ := h
    omega
  | succ fuel ih =>
    intro k h
    rw [pickFreshIdx]
    by_cases hk : dosCandidate name k ∈ existing
    · rw [if_pos hk]
      apply ih
      obtain ⟨j, hj, hfresh⟩ := h
      match j with
      | 0 => exact absurd hfresh (by simpa using hk)
      | j + 1 => exact ⟨j, by omega, by rw [show k + 1 + j = k + (j + 1) by omega]; exact hfresh⟩
    · rw [if_neg hk]
      exact hk

theorem get_dos_filename_fresh (name : String) (existing : List String) :
    get_dos_filename name existing ∉ existing := by
  unfold get_dos_filename
  apply pickFreshIdx_fresh
  by_contra hcon
  push_neg at hcon
  have hsub : (Finset.range (existing.length + 1)).image (dosCandidate name) ⊆
      existing.toFinset := by
    intro x hx
    rw [Finset.mem_image] at hx
    obtain ⟨j, hj, rfl⟩ := hx
    rw [Finset.mem_range] at hj
    exact List.mem_toFinset.mpr (by simpa using hcon j hj)
  have hcard := Finset.card_le_card hsub
  rw [Finset.card_image_of_injective _ (dosCandidate_injective name),
    Finset.card_range] at hcard
  have hle := existing.toFinset_card_le
  omega

theorem get_file_info_for_names_invariant (ftp : FtpConnection) :
    ∀ (files : List String) (existing : List String),
      (((get_file_info_for_names ftp files existing).1.map
        FileInfo.dosname).Nodup) ∧
      (∀ f ∈ (get_file_info_for_names ftp files existing).1,
        f.dosname ∉ existing) ∧
      (∀ s ∈ existing, s ∈ (get_file_info_for_names ftp files existing).2) ∧
      (∀ f ∈ (get_file_info_for_names ftp files existing).1,
        f.dosname ∈ (get_file_info_for_names ftp files existing).2) := by
  intro files
  induction files with
  | nil =>
    intro existing
    refine ⟨by simp [get_file_info_for_names], ?_, ?_, ?_⟩
    · intro f hf; simp [get_file_info_for_names] at hf
    · intro s hs; simpa [get_file_info_for_names] using hs
    · intro f hf; simp [get_file_info_for_names] at hf
  | cons entry rest ih =>
    intro existing
    have hfresh : (get_ftp_file_info ftp entry existing).dosname ∉ existing :=
      get_dos_filename_fresh _ existing
    obtain ⟨ihnd, ihfresh, ihmono, ihmem⟩ :=
      ih (existing ++ [(get_ftp_file_info ftp entry existing).file_name,
        (get_ftp_file_info ftp entry existing).dosname])
    have hstep :
        get_file_info_for_names ftp (entry :: rest) existing =
          ((get_ftp_file_info ftp entry existing) ::
            (get_file_info_for_names ftp rest
              (existing ++ [(get_ftp_file_info ftp entry existing).file_name,
                (get_ftp_file_info ftp entry existing).dosname])).1,
          (get_file_info_for_names ftp rest
              (existing ++ [(get_ftp_file_info ftp entry existing).file_name,
                (get_ftp_file_info ftp entry existing).dosname])).2) := rfl
    rw [hstep]
    refine ⟨?_, ?_, ?_, ?_⟩
    · simp only [List.map_cons, List.nodup_cons]
      constructor
      · intro hmem2
        rw [List.mem_map] at hmem2
        obtain ⟨f, hf, hfd⟩ := hmem2
        have := ihfresh f hf
        apply this
        rw [hfd]
        simp
      · exact ihnd
    · intro f hf
      rcases List.mem_cons.mp hf with h | h
      · rw [h]; exact hfresh
      · intro hcon
        exact ihfresh f h (by simp [hcon])
    · intro s hs
      exact ihmono s (by simp [hs])
    · intro f hf
      rcases List.mem_cons.mp hf with h | h
      · rw [h]
        apply ihmono
        simp
      · exact ihmem f h

theorem list_all_views_fold_invariant (ftp : FtpConnection) :
    ∀ (filters : List (String × String)) (acc : List FileInfo)
      (ex : List String),
      ((acc.map FileInfo.dosname).Nodup) →
      (∀ f ∈ acc, f.dosname ∈ ex) →
      (((filters.foldl
          (fun acc2 filt =>
            let r := list_files ftp filt.1 filt.2 acc2.2
            (acc2.1 ++ r.1, r.2)) (acc, ex)).1.map FileInfo.dosname).Nodup) ∧
      (∀ f ∈ (filters.foldl
          (fun acc2 filt =>
            let r := list_files ftp filt.1 filt.2 acc2.2
            (acc2.1 ++ r.1, r.2)) (acc, ex)).1,
        f.dosname ∈ (filters.foldl
          (fun acc2 filt =>
            let r := list_files ftp filt.1 filt.2 acc2.2
            (acc2.1 ++ r.1, r.2)) (acc, ex)).2) := by
  intro filters
  induction filters with
  | nil =>
    intro acc ex hnd hmem
    exact ⟨hnd, hmem⟩
  | cons filt rest ih =>
    intro acc ex hnd hmem
    obtain ⟨rnd, rfresh, rmono, rmem⟩ :=
      get_file_info_for_names_invariant ftp (ftp.listing filt.1 filt.2) ex
    simp only [List.foldl_cons]
    apply ih
    · rw [List.map_append, List.nodup_append]
      refine ⟨hnd, rnd, ?_⟩
      intro a ha hb
      rw [List.mem_map] at ha hb
      obtain ⟨f, hf, rfl⟩ := ha
      obtain ⟨g, hg, hgd⟩ := hb
      exact rfresh g hg (by rw [hgd]; exact hmem f hf)
    · intro f hf
      rcases List.mem_append.mp hf with h | h
      · exact rmono _ (hmem f h)
      · exact rmem f h

/-- C3: all short names (dosnames) assigned in one catalog refresh pass —
across all registered folder/extension filters of the view — are pairwise
distinct, because each produced entry's file name and dosname are appended
to the collision list consulted for the next entry. -/
theorem catalog_refresh_dosnames_distinct (ftp : FtpConnection)
    (folder_view : List (String × String)) :
    ((list_all_views ftp folder_view).map FileInfo.dosname).Nodup := by
  unfold list_all_views
  exact (list_all_views_fold_invariant ftp folder_view [] []
    (by simp) (by simp)).1

/-! ### C2: checksum mismatch and resend -/

theorem rfindLast_eq_none_of_not_mem {b : Nat} :
    ∀ {l : List Nat}, b ∉ l → rfindLast b l = none := by
  intro l
  induction l with
  | nil => intro _; rfl
  | cons x xs ih =>
    intro h
    rw [rfindLast, ih (fun hx => h (List.mem_cons_of_mem _ hx))]
    rcases eq_or_ne x b with rfl | hne
    · exact absurd (List.mem_cons_self _ _) h
    · rw [if_neg hne]

theorem rfindLast_append_cons (pre suf : List Nat) (h : 42 ∉ suf) :
    rfindLast 42 (pre ++ 42 :: suf) = some pre.length := by
  induction pre with
  | nil =>
    rw [List.nil_append, rfindLast, rfindLast_eq_none_of_not_mem h]
    simp
  | cons x xs ih =>
    rw [List.cons_append, rfindLast, ih]
    rfl

theorem append_cons_drop (pre suf : List Nat) (b : Nat) :
    (pre ++ b :: suf).drop (pre.length + 1) = suf := by
  rw [show pre ++ b :: suf = (pre ++ [b]) ++ suf by simp]
  rw [show pre.length + 1 = (pre ++ [b]).length by simp]
  exact append_drop_length _ _

theorem digit_not_ws {b : Nat} (h : isDigitByte b = true) :
    isPyWhitespace b = false := by
  simp only [isDigitByte, Bool.and_eq_true, decide_eq_true_eq] at h
  simp only [isPyWhitespace]
  simp only [Bool.or_eq_false_iff, decide_eq_false_iff_not]
  omega

theorem takeWhile_append_stop {α : Type} (p : α → Bool) (xs : List α) (y : α)
    (ys : List α) (hx : ∀ x ∈ xs, p x = true) (hy : p y = false) :
    (xs ++ y :: ys).takeWhile p = xs := by
  induction xs with
  | nil => simp [List.takeWhile_cons, hy]
  | cons x xs ih =>
    rw [List.cons_append, List.takeWhile_cons,
      hx x (List.mem_cons_self _ _)]
    simp [ih (fun z hz => hx z (List.mem_cons_of_mem _ hz))]

theorem dropWhile_append_stop {α : Type} (p : α → Bool) (xs : List α) (y : α)
    (ys : List α) (hx : ∀ x ∈ xs, p x = true) (hy : p y = false) :
    (xs ++ y :: ys).dropWhile p = y :: ys := by
  induction xs with
  | nil => simp [List.dropWhile_cons, hy]
  | cons x xs ih =>
    rw [List.cons_append, List.dropWhile_cons]
    rw [hx x (List.mem_cons_self _ _)]
    simpa using ih (fun z hz => hx z (List.mem_cons_of_mem _ hz))

theorem dropWhile_ws_eq_self_of_all_digits {l : List Nat}
    (h : ∀ b ∈ l, isDigitByte b = true) :
    l.dropWhile (fun b => isPyWhitespace b) = l := by
  cases l with
  | nil => rfl
  | cons x xs =>
    rw [List.dropWhile_cons, digit_not_ws (h x (List.mem_cons_self _ _))]
    simp

theorem dropWhile_cons_false {α : Type} (p : α → Bool) (x : α) (xs : List α)
    (h : p x = false) : (x :: xs).dropWhile p = x :: xs := by
  simp [List.dropWhile_cons, h]

theorem pyStrip_digits_newline (m : Nat) :
    pyStrip (natToDigitBytes m ++ [10]) = natToDigitBytes m := by
  cases hnd : natToDigitBytes m with
  | nil => exact absurd hnd (natToDigitBytes_ne_nil m)
  | cons d ds =>
    have hall : ∀ b ∈ d :: ds, isDigitByte b = true := by
      rw [← hnd]; exact natToDigitBytes_all_digits m
    unfold pyStrip
    rw [List.cons_append]
    rw [dropWhile_cons_false _ _ _
      (digit_not_ws (hall d (List.mem_cons_self _ _)))]
    have h1 : (d :: (ds ++ [10])).reverse = 10 :: (ds.reverse ++ [d]) := by
      simp
    rw [h1]
    rw [List.dropWhile_cons]
    rw [show isPyWhitespace 10 = true from rfl]
    simp only [if_true]
    have hall2 : ∀ b ∈ ds.reverse ++ [d], isDigitByte b = true := by
      intro b hb
      rcases List.mem_append.mp hb with h | h
      · exact hall b (List.mem_cons_of_mem _ (List.mem_reverse.mp h))
      · simp only [List.mem_singleton] at h
        rw [h]
        exact hall d (List.mem_cons_self _ _)
    rw [dropWhile_ws_eq_self_of_all_digits hall2]
    simp

theorem pyParseNat_digits_newline (m : Nat) :
    pyParseNat (natToDigitBytes m ++ [10]) = some m := by
  unfold pyParseNat
  rw [pyStrip_digits_newline]
  rw [if_pos ⟨natToDigitBytes_ne_nil m,
    List.all_eq_true.mpr (natToDigitBytes_all_digits m)⟩]
  rw [digitsToNat_natToDigitBytes]

theorem find_n_match_digits (n : Nat) (cmd : List Nat) :
    find_n_match (78 :: (natToDigitBytes n ++ 32 :: cmd)) = some n := by
  rw [find_n_match]
  rw [if_pos rfl]
  rw [takeWhile_append_stop (fun x => isDigitByte x) (natToDigitBytes n) 32 cmd
    (fun b hb => natToDigitBytes_all_digits n b hb) (by rfl)]
  rw [if_neg (natToDigitBytes_ne_nil n)]
  rw [digitsToNat_natToDigitBytes]

theorem pySplitNone1_numbered_line (n : Nat) (cmd : List Nat)
    (hrest : cmd.dropWhile (fun b => isPyWhitespace b) ≠ []) :
    pySplitNone1 (78 :: (natToDigitBytes n ++ 32 :: cmd)) =
      [78 :: natToDigitBytes n,
        cmd.dropWhile (fun b => isPyWhitespace b)] := by
  have hnotws : ∀ x ∈ 78 :: natToDigitBytes n,
      (fun b => !isPyWhitespace b) x = true := by
    intro x hx
    rcases List.mem_cons.mp hx with h | h
    · rw [h]; rfl
    · simp only [Bool.not_eq_true']
      exact digit_not_ws (natToDigitBytes_all_digits n x h)
  simp only [pySplitNone1]
  rw [dropWhile_cons_false (fun b => isPyWhitespace b) 78 _ (by rfl)]
  rw [if_neg (by simp)]
  rw [show 78 :: (natToDigitBytes n ++ 32 :: cmd) =
    (78 :: natToDigitBytes n) ++ 32 :: cmd from by simp]
  rw [takeWhile_append_stop (fun b => !isPyWhitespace b)
    (78 :: natToDigitBytes n) 32 cmd hnotws (by rfl)]
  rw [dropWhile_append_stop (fun b => !isPyWhitespace b)
    (78 :: natToDigitBytes n) 32 cmd hnotws (by rfl)]
  rw [List.dropWhile_cons]
  rw [if_pos (show isPyWhitespace 32 = true from rfl)]
  rw [if_neg hrest]

theorem dispatch_command_spec (st : SerialState) (data : List Nat) :
    (dispatch_command st data).1 = st ∧
    ∀ e ∈ (dispatch_command st data).2, e.isSent = false := by
  rcases hm : command_regex_match (pyStrip (data ++ [10])) with _ | g0 <;>
    simp [dispatch_command, hm, SerialEvent.isSent]

theorem triggerResend_expected (st : SerialState) (e : Int) :
    triggerResend st (some e) none none =
      ({ st with lastN := e - 1 },
        ["Error: Missing checksum", "Resend:" ++ toString e, "ok"]) := by
  simp [triggerResend]

theorem process_star_some (fc : Bool) (st : SerialState) (data0 : List Nat)
    (r : Nat) (cs : Nat) (h1 : 42 ∈ data0)
    (h2 : rfindLast 42 data0 = some r)
    (h3 : pyParseNat (data0.drop (r + 1)) = some cs) :
    process_input_gcode_line fc st data0 =
      (if cs ≠ calculate_checksum (data0.take r) then
        some ((triggerResend st (some (st.current_line + 1)) none none).1,
          (triggerResend st (some (st.current_line + 1)) none none).2.map
            SerialEvent.sent)
      else
        handle_line_number { st with current_line := st.current_line + 1 }
          (data0.take r)) := by
  simp only [process_input_gcode_line, if_pos h1, h2, h3]

theorem handle_line_number_accept (st : SerialState) (n : Nat) (cmd : List Nat)
    (hM : bytesContains (78 :: (natToDigitBytes n ++ 32 :: cmd))
      [77, 49, 49, 48] = false)
    (hn : (n : Int) = st.lastN + 1)
    (hrest : cmd.dropWhile (fun b => isPyWhitespace b) ≠ []) :
    handle_line_number st (78 :: (natToDigitBytes n ++ 32 :: cmd)) =
      some (dispatch_command { st with lastN := (n : Int) }
        (pyStrip (cmd.dropWhile (fun b => isPyWhitespace b)))) := by
  simp only [handle_line_number, hM, find_n_match_digits,
    pySplitNone1_numbered_line n cmd hrest, List.head?_cons, hn]
  simp

/-- C2: a received line carrying a trailing `*checksum` whose value differs
from the XOR of the preceding bytes is discarded (nothing is dispatched);
the transport emits, in order, an `Error: <reason>` line, a
`Resend:<expected>` line (expected = `current_line + 1`), and an `ok` line,
and rolls the line-number counter back so that a checksummed resubmission
carrying exactly that line number is accepted and processed (no error or
resend line is emitted for it and the counter advances). -/
theorem checksum_mismatch_resend (fc : Bool) (st : SerialState)
    (pre csBytes : List Nat) (cs : Nat)
    (hstar : 42 ∉ csBytes)
    (hparse : pyParseNat csBytes = some cs)
    (hmm : cs ≠ calculate_checksum pre) :
    process_input_gcode_line fc st (pre ++ 42 :: csBytes) =
      some ({ lastN := st.current_line, current_line := st.current_line },
        [SerialEvent.sent "Error: Missing checksum",
          SerialEvent.sent ("Resend:" ++ toString (st.current_line + 1)),
          SerialEvent.sent "ok"]) ∧
    (∀ (n : Nat) (cmd : List Nat),
      st.current_line + 1 = (n : Int) →
      bytesContains (78 :: (natToDigitBytes n ++ 32 :: cmd))
        [77, 49, 49, 48] = false →
      cmd.dropWhile (fun b => isPyWhitespace b) ≠ [] →
      ∃ evs : List SerialEvent,
        process_input_gcode_line false
            { lastN := st.current_line, current_line := st.current_line }
            ((78 :: (natToDigitBytes n ++ 32 :: cmd)) ++
              42 :: (natToDigitBytes (calculate_checksum
                (78 :: (natToDigitBytes n ++ 32 :: cmd))) ++ [10])) =
          some ((⟨(n : Int), st.current_line + 1⟩ : SerialState), evs) ∧
        ∀ e ∈ evs, e.isSent = false) := by
  constructor
  · rw [process_star_some fc st (pre ++ 42 :: csBytes) pre.length cs (by simp)
      (rfindLast_append_cons pre csBytes hstar)
      (by rw [append_cons_drop]; exact hparse)]
    rw [append_take_length]
    rw [if_pos hmm]
    rw [triggerResend_expected]
    simp
  · intro n cmd hn hM hrest
    have hstar2 : 42 ∉ natToDigitBytes (calculate_checksum
        (78 :: (natToDigitBytes n ++ 32 :: cmd))) ++ [10] := by
      intro hmem
      rcases List.mem_append.mp hmem with h | h
      · have hd := natToDigitBytes_all_digits _ _ h
        simp [isDigitByte] at hd
      · simp at h
    refine ⟨(dispatch_command
      { lastN := (n : Int), current_line := st.current_line + 1 }
      (pyStrip (cmd.dropWhile (fun b => isPyWhitespace b)))).2, ?_, ?_⟩
    · rw [process_star_some false _ _
        (78 :: (natToDigitBytes n ++ 32 :: cmd)).length
        (calculate_checksum (78 :: (natToDigitBytes n ++ 32 :: cmd)))
        (by simp)
        (rfindLast_append_cons _ _ hstar2)
        (by rw [append_cons_drop]; exact pyParseNat_digits_newline _)]
      rw [append_take_length]
      rw [if_neg (by simp)]
      rw [handle_line_number_accept _ n cmd hM (by simpa using hn.symm) hrest]
      have hd := dispatch_command_spec
        (⟨(n : Int), st.current_line + 1⟩ : SerialState)
        (pyStrip (cmd.dropWhile (fun b => isPyWhitespace b)))
      exact congrArg some (Prod.ext hd.1 rfl)
    · exact (dispatch_command_spec _ _).2

/-- Witness for the C2 theorem: the line `G28*99` (XOR checksum 77, claimed
99) triggers the resend of line 1, and the checksummed resubmission
`N1 G28*<checksum>` is accepted and dispatched from the rolled-back state. -/
theorem checksum_mismatch_resend_witness :
    (process_input_gcode_line false ⟨0, 0⟩ ([71, 50, 56] ++ 42 :: [57, 57, 10]) =
      some ((⟨0, 0⟩ : SerialState),
        [SerialEvent.sent "Error: Missing checksum",
          SerialEvent.sent ("Resend:" ++ toString ((0 : Int) + 1)),
          SerialEvent.sent "ok"])) ∧
    (∃ evs : List SerialEvent,
      process_input_gcode_line false (⟨0, 0⟩ : SerialState)
          ((78 :: (natToDigitBytes 1 ++ 32 :: [71, 50, 56])) ++
            42 :: (natToDigitBytes (calculate_checksum
              (78 :: (natToDigitBytes 1 ++ 32 :: [71, 50, 56]))) ++ [10])) =
        some ((⟨((1 : Nat) : Int), (0 : Int) + 1⟩ : SerialState), evs) ∧
      ∀ e ∈ evs, e.isSent = false) := by
  have hd1 : natToDigitBytes 1 = [49] := by simp [natToDigitBytes, decDigits]
  have h := checksum_mismatch_resend false ⟨0, 0⟩ [71, 50, 56] [57, 57, 10] 99
    (by decide) (by decide) (by decide)
  refine ⟨h.1, ?_⟩
  exact h.2 1 [71, 50, 56] (by decide) (by rw [hd1]; decide) (by decide)
